import Mathlib

/-!
Verification of the snapshot-cloning core of the offsite APFS backup tool.

The development shallowly embeds, in Lean, the functions of the diskutil
package (snapshot timestamp derivation and snapshot-list validation) and of
the cloner package (common-snapshot resolution, cloneability validation and
the clone orchestrator), together with the dry-run collaborator variants.
External collaborators (the volume metadata provider and the block restorer)
are modelled as an environment of response functions, and the orchestrator
is modelled as a function that also emits the trace of collaborator calls it
performs, so that temporal claims about the order of calls can be stated.
-/

namespace OffsiteBackup

/-- A parsed snapshot creation time, with the fields that the Go code obtains
by parsing a yyyy-mm-dd-hhmmss substring of the snapshot name. -/
structure DateTime where
  year : Nat
  month : Nat
  day : Nat
  hour : Nat
  minute : Nat
  second : Nat
  deriving DecidableEq, Repr

/-- Injective monotone key for chronologically ordering valid date-times.
For field values inside the ranges enforced at parse time this order agrees
with the order of the corresponding absolute instants, which is what
time.Time.Before compares. -/
def DateTime.toSec (d : DateTime) : Nat :=
  ((((d.year * 13 + d.month) * 32 + d.day) * 24 + d.hour) * 60 + d.minute) * 60 + d.second

/-- Model of time.Time.Before on parsed snapshot times. -/
def DateTime.before (a b : DateTime) : Bool :=
  a.toSec < b.toSec

/-- Gregorian leap year rule, as implemented by the Go time package. -/
def isLeapYear (y : Nat) : Bool :=
  (y % 4 = 0 && y % 100 ≠ 0) || y % 400 = 0

/-- Number of days of a month, as validated by time.Parse. -/
def daysInMonth (y m : Nat) : Nat :=
  if m = 2 then (if isLeapYear y then 29 else 28)
  else if m = 4 || m = 6 || m = 9 || m = 11 then 30
  else 31

/-- Range validation performed by time.Parse on the six numeric fields: it
rejects an out-of-range month, a day out of range for the month, and
out-of-range hour, minute or second values. -/
def mkDateTime (y mo d h mi s : Nat) : Option DateTime :=
  if 1 ≤ mo ∧ mo ≤ 12 ∧ 1 ≤ d ∧ d ≤ daysInMonth y mo ∧ h ≤ 23 ∧ mi ≤ 59 ∧ s ≤ 59 then
    some ⟨y, mo, d, h, mi, s⟩
  else
    none

/-- Numeric value of a decimal digit character. -/
def digitVal (c : Char) : Nat :=
  c.toNat - 48

/-- Whether a list of characters starts with the given shape, one predicate
per character. -/
def matchesShape : List (Char → Bool) → List Char → Bool
  | [], _ => true
  | _ :: _, [] => false
  | p :: ps, c :: cs => p c && matchesShape ps cs

/-- The shape of the regular expression of parseTimeFromSnapshotName: four
digits, a dash, two digits, a dash, two digits, a dash, six digits. The
pattern has fixed length 17, so the leftmost-match rule of the Go regexp
package reduces to taking the leftmost matching window. -/
def timeShape : List (Char → Bool) :=
  [Char.isDigit, Char.isDigit, Char.isDigit, Char.isDigit, fun c => c = '-',
   Char.isDigit, Char.isDigit, fun c => c = '-',
   Char.isDigit, Char.isDigit, fun c => c = '-',
   Char.isDigit, Char.isDigit, Char.isDigit, Char.isDigit, Char.isDigit, Char.isDigit]

/-- Model of regexp.FindString for the fixed-length timestamp pattern:
return the 17 characters starting at the leftmost position where the
pattern matches, if any. -/
def findTimeMatch : List Char → Option (List Char)
  | [] => none
  | c :: cs =>
    if matchesShape timeShape (c :: cs) then some ((c :: cs).take 17)
    else findTimeMatch cs

/-- Model of time.Parse with layout 2006-01-02-150405 applied to a matched
17-character window: read the six numeric fields and validate their ranges. -/
def parseTimeDigits : List Char → Option DateTime
  | [y1, y2, y3, y4, _, a1, a2, _, b1, b2, _, c1, c2, c3, c4, c5, c6] =>
    mkDateTime
      (digitVal y1 * 1000 + digitVal y2 * 100 + digitVal y3 * 10 + digitVal y4)
      (digitVal a1 * 10 + digitVal a2)
      (digitVal b1 * 10 + digitVal b2)
      (digitVal c1 * 10 + digitVal c2)
      (digitVal c3 * 10 + digitVal c4)
      (digitVal c5 * 10 + digitVal c6)
  | _ => none

/-- Model of diskutil parseTimeFromSnapshotName: find the leftmost
yyyy-mm-dd-hhmmss window of the name and parse it; fail if there is no such
window, or if the window does not parse as a valid date-time. -/
def parseTimeFromSnapshotName (name : String) : Except String DateTime :=
  match findTimeMatch name.toList with
  | none => .error "snapshot name does not contain a timestamp of the form yyyy-mm-dd-hhmmss"
  | some m =>
    match parseTimeDigits m with
    | none => .error "failed to parse time substring from snapshot name"
    | some dt => .ok dt

/-- A snapshot as decoded from the plist output of the metadata provider,
before the creation time is derived. -/
structure RawSnapshot where
  name : String
  uuid : String
  deriving DecidableEq, Repr

/-- A snapshot with its derived creation time, as used by the cloner. -/
structure Snapshot where
  name : String
  uuid : String
  created : DateTime
  deriving DecidableEq, Repr

instance : Inhabited Snapshot :=
  ⟨⟨"", "", ⟨0, 0, 0, 0, 0, 0⟩⟩⟩

/-- The per-snapshot loop of DiskUtil.ListSnapshots: derive every creation
time from the snapshot name, failing on the first name that does not parse. -/
def attachTimes : List RawSnapshot → Except String (List Snapshot)
  | [] => .ok []
  | r :: rest =>
    match parseTimeFromSnapshotName r.name with
    | .error e => .error e
    | .ok dt =>
      match attachTimes rest with
      | .error e => .error e
      | .ok snaps => .ok (⟨r.name, r.uuid, dt⟩ :: snaps)

/-- Model of sort.SliceIsSorted with the Created.Before comparator: no
element is strictly before its predecessor, i.e. the list is ordered
oldest first (ties allowed). -/
def isSortedByCreated : List Snapshot → Bool
  | [] => true
  | [_] => true
  | a :: b :: rest => !(b.created.before a.created) && isSortedByCreated (b :: rest)

/-- Model of DiskUtil.ListSnapshots after plist decoding: derive all
creation times, fail if the provider list is not ordered oldest first, and
otherwise return the snapshots newest first. -/
def ListSnapshots (raw : List RawSnapshot) : Except String (List Snapshot) :=
  match attachTimes raw with
  | .error e => .error e
  | .ok snaps =>
    if isSortedByCreated snaps then .ok snaps.reverse
    else .error "provider returned snapshots in an unexpected order"

/-- Errors of the common-snapshot resolver, one per errors.New site of
latestCommonSnapshot. -/
inductive ResolutionError where
  | noCommonSnapshot
  | alreadyInSync
  | targetAheadOfSource
  deriving DecidableEq, Repr

/-- The Go error message of each resolver error. -/
def ResolutionError.message : ResolutionError → String
  | .noCommonSnapshot => "source and target have no snapshots in common"
  | .alreadyInSync => "both source and target have the same latest snapshot"
  | .targetAheadOfSource => "target has a snapshot ahead of source"

/-- The inner loop of latestCommonSnapshotIndices: index of the first
snapshot of the source list with the given uuid, scanning from the front
(newest first). -/
def findSourceIdx (uuid : String) : List Snapshot → Option Nat
  | [] => none
  | s :: rest =>
    if s.uuid = uuid then some 0
    else (findSourceIdx uuid rest).map (· + 1)

/-- Model of latestCommonSnapshotIndices: scan target from the front
(newest first); for each target snapshot scan source from the front; return
the first pair of indices whose snapshots share a uuid. -/
def latestCommonSnapshotIndices (source : List Snapshot) : List Snapshot → Option (Nat × Nat)
  | [] => none
  | ts :: rest =>
    match findSourceIdx ts.uuid source with
    | some si => some (si, 0)
    | none => (latestCommonSnapshotIndices source rest).map (fun p => (p.1, p.2 + 1))

/-- Model of latestCommonSnapshot: classify the result of the index scan in
priority order, and on success return the matched source snapshot. -/
def latestCommonSnapshot (source target : List Snapshot) : Except ResolutionError Snapshot :=
  match latestCommonSnapshotIndices source target with
  | none => .error .noCommonSnapshot
  | some (si, ti) =>
    if si = 0 ∧ ti = 0 then .error .alreadyInSync
    else if si = 0 then .error .targetAheadOfSource
    else .ok (source.getD si default)

/-- Volume metadata, with the fields of the diskutil VolumeInfo structure
that the cloner reads. -/
structure VolumeInfo where
  name : String
  uuid : String
  mountPoint : String
  device : String
  writable : Bool
  fileSystemType : String
  fileSystem : String
  deriving DecidableEq, Repr

/-- One call from the cloner to an external collaborator. Read calls are
Info and ListSnapshots calls of the metadata provider; every other call
mutates external volume state. -/
inductive Event where
  | info (locator : String)
  | listSnapshots (volUuid : String)
  | rename (volUuid newName : String)
  | deleteSnapshot (volUuid snapUuid : String)
  | restore (srcUuid tgtUuid toUuid fromUuid : String)
  | destructiveRestore (srcUuid tgtUuid toUuid : String)
  deriving DecidableEq, Repr

/-- Whether the call is one of the two read calls of the metadata provider. -/
def Event.isRead : Event → Bool
  | .info _ => true
  | .listSnapshots _ => true
  | _ => false

/-- Fixed responses of the external collaborators: what the metadata
provider answers to Info and ListSnapshots, and whether each mutating call
succeeds. A fixed environment models unchanged external state. -/
structure Env where
  infoOf : String → Except String VolumeInfo
  snapsOf : VolumeInfo → Except String (List Snapshot)
  renameOk : VolumeInfo → String → Except String Unit
  deleteOk : VolumeInfo → Snapshot → Except String Unit
  restoreOk : VolumeInfo → VolumeInfo → Snapshot → Snapshot → Except String Unit
  dRestoreOk : VolumeInfo → VolumeInfo → Snapshot → Except String Unit

/-- Cloner configuration: the Prune and InitializeTargets options. -/
structure Cloner where
  prune : Bool
  initTargets : Bool
  deriving DecidableEq, Repr

/-- Model of the lowercase cloneable method: in incremental mode run the
resolver over the two histories and propagate its error; in initialize mode
fail iff the target has snapshots. -/
def Cloner.cloneable (c : Cloner) (sourceSnaps targetSnaps : List Snapshot) : Except String Unit :=
  if !c.initTargets then
    match latestCommonSnapshot sourceSnaps targetSnaps with
    | .error e => .error ("error finding latest snapshot in common between source and target: " ++ e.message)
    | .ok _ => .ok ()
  else if targetSnaps.length > 0 then
    .error "invalid target: target has snapshots - erase the disk before using it"
  else
    .ok ()

/-- Lookup in the targetUUIDs map of Cloneable, with the empty string as
the Go zero value for an absent key. -/
def lookupD : List (String × String) → String → String
  | [], _ => ""
  | (k, v) :: rest, key => if k = key then v else lookupD rest key

/-- The per-target loop of Cloneable, threading the map from target uuid to
the target argument that first produced it, and the trace of collaborator
calls. -/
def cloneableLoop (c : Cloner) (env : Env) (si : VolumeInfo) (ss : List Snapshot) :
    List (String × String) → List String → List Event → Except String Unit × List Event
  | _, [], tr => (.ok (), tr)
  | m, t :: rest, tr =>
    let tr := tr ++ [.info t]
    match env.infoOf t with
    | .error e => (.error ("invalid target volume: " ++ e), tr)
    | .ok ti =>
      if si.uuid = ti.uuid then
        (.error "source and target must be different volumes", tr)
      else if lookupD m ti.uuid ≠ "" then
        (.error "invalid target: same as an earlier target", tr)
      else
        let m := (ti.uuid, t) :: m
        if ti.fileSystemType ≠ "apfs" then
          (.error "invalid target volume: does not contain an APFS file system", tr)
        else if si.fileSystem ≠ ti.fileSystem then
          (.error "invalid source + target combination: different file systems", tr)
        else if !ti.writable then
          (.error "invalid target volume: volume not writable", tr)
        else
          let tr := tr ++ [.listSnapshots ti.uuid]
          match env.snapsOf ti with
          | .error e => (.error ("error listing snapshots of target: " ++ e), tr)
          | .ok ts =>
            match c.cloneable ss ts with
            | .error e => (.error e, tr)
            | .ok _ => cloneableLoop c env si ss m rest tr

/-- Model of Cloner.Cloneable: validate the source (exists, APFS, has
snapshots), require at least one target, then validate every target in
order, failing fast. -/
def Cloner.Cloneable (c : Cloner) (env : Env) (source : String) (targets : List String)
    (tr : List Event) : Except String Unit × List Event :=
  let tr := tr ++ [.info source]
  match env.infoOf source with
  | .error e => (.error ("invalid source volume: " ++ e), tr)
  | .ok si =>
    if si.fileSystemType ≠ "apfs" then
      (.error "invalid source volume: does not contain an APFS file system", tr)
    else
      let tr := tr ++ [.listSnapshots si.uuid]
      match env.snapsOf si with
      | .error e => (.error ("error listing snapshots of source: " ++ e), tr)
      | .ok ss =>
        if ss.length = 0 then (.error "invalid source: no snapshots to clone", tr)
        else if targets.length = 0 then (.error "no targets", tr)
        else cloneableLoop c env si ss [] targets tr

/-- Model of the lowercase clone method (incremental mode): list both
histories, resolve the common snapshot, restore from it to the latest
source snapshot, and, if pruning, delete the common snapshot from the
target. In the current code the prune step is inside this method, before
the caller renames the target back. -/
def Cloner.clone (c : Cloner) (env : Env) (source target : VolumeInfo) (tr : List Event) :
    Except String Unit × List Event :=
  let tr := tr ++ [.listSnapshots source.uuid]
  match env.snapsOf source with
  | .error e => (.error ("error listing snapshots of source: " ++ e), tr)
  | .ok ss =>
    let tr := tr ++ [.listSnapshots target.uuid]
    match env.snapsOf target with
    | .error e => (.error ("error listing snapshots of target: " ++ e), tr)
    | .ok ts =>
      match latestCommonSnapshot ss ts with
      | .error e => (.error ("error finding latest snapshot in common between source and target: " ++ e.message), tr)
      | .ok common =>
        let latest := ss.headD default
        let tr := tr ++ [.restore source.uuid target.uuid latest.uuid common.uuid]
        match env.restoreOk source target latest common with
        | .error e => (.error ("error restoring: " ++ e), tr)
        | .ok _ =>
          if c.prune then
            let tr := tr ++ [.deleteSnapshot target.uuid common.uuid]
            match env.deleteOk target common with
            | .error _ => (.error "error deleting snapshot from target", tr)
            | .ok _ => (.ok (), tr)
          else
            (.ok (), tr)

/-- Model of destructiveClone: list the source history, require it to be
nonempty, list the target history, require it to be empty, then invoke the
destructive restore to the latest source snapshot. -/
def destructiveClone (env : Env) (source target : VolumeInfo) (tr : List Event) :
    Except String Unit × List Event :=
  let tr := tr ++ [.listSnapshots source.uuid]
  match env.snapsOf source with
  | .error e => (.error ("error listing snapshots of source: " ++ e), tr)
  | .ok ss =>
    if ss.length = 0 then (.error "source does not contain any snapshots", tr)
    else
      let tr := tr ++ [.listSnapshots target.uuid]
      match env.snapsOf target with
      | .error e => (.error ("error listing snapshots of target: " ++ e), tr)
      | .ok ts =>
        if ts.length > 0 then
          (.error "aborting because target contains snapshots that would be erased", tr)
        else
          let latest := ss.headD default
          let tr := tr ++ [.destructiveRestore source.uuid target.uuid latest.uuid]
          match env.dRestoreOk source target latest with
          | .error e => (.error ("error restoring: " ++ e), tr)
          | .ok _ => (.ok (), tr)

/-- Model of Cloner.Clone: resolve both volume infos, run the destructive
or the incremental clone according to the mode, and on success rename the
target back to its original name (the restorer leaves it renamed). The
rename step is shared by both modes. -/
def Cloner.Clone (c : Cloner) (env : Env) (source target : String) (tr : List Event) :
    Except String Unit × List Event :=
  let tr := tr ++ [.info source]
  match env.infoOf source with
  | .error e => (.error ("error getting volume info of source: " ++ e), tr)
  | .ok si =>
    let tr := tr ++ [.info target]
    match env.infoOf target with
    | .error e => (.error ("error getting volume info of target: " ++ e), tr)
    | .ok ti =>
      let step := if c.initTargets then destructiveClone env si ti tr else c.clone env si ti tr
      match step.1 with
      | .error e => (.error e, step.2)
      | .ok _ =>
        let tr := step.2 ++ [.rename ti.uuid ti.name]
        match env.renameOk ti ti.name with
        | .error e => (.error ("error renaming volume to original name: " ++ e), tr)
        | .ok _ => (.ok (), tr)

/-- A metadata provider implementation as state transformers over an
abstract world of external volume state. -/
structure DiskUtilImpl (W : Type) where
  info : W → String → Except String VolumeInfo × W
  rename : W → VolumeInfo → String → Except String Unit × W
  listSnapshots : W → VolumeInfo → Except String (List Snapshot) × W
  deleteSnapshot : W → VolumeInfo → Snapshot → Except String Unit × W

/-- A restorer implementation as state transformers over an abstract world
of external volume state. -/
structure RestorerImpl (W : Type) where
  restore : W → VolumeInfo → VolumeInfo → Snapshot → Snapshot → Except String Unit × W
  destructiveRestore : W → VolumeInfo → VolumeInfo → Snapshot → Except String Unit × W

/-- Model of diskutil NewDryRun: pass Info and ListSnapshots through to the
underlying implementation and turn Rename and DeleteSnapshot into no-ops
that report success. -/
def dryRunDiskUtil {W : Type} (du : DiskUtilImpl W) : DiskUtilImpl W where
  info := du.info
  listSnapshots := du.listSnapshots
  rename := fun w _ _ => (.ok (), w)
  deleteSnapshot := fun w _ _ => (.ok (), w)

/-- Model of asr NewDryRun: both restore variants are no-ops that report
success. -/
def dryRunRestorer {W : Type} : RestorerImpl W where
  restore := fun w _ _ _ _ => (.ok (), w)
  destructiveRestore := fun w _ _ _ => (.ok (), w)

/-! ### Helper lemmas about the common-snapshot resolver -/

lemma getD_of_getElem? {α : Type} (d : α) :
    ∀ (l : List α) (i : Nat) (x : α), l[i]? = some x → l.getD i d = x := by
  intro l
  induction l with
  | nil => intro i x h; simp at h
  | cons a l ih =>
    intro i x h
    cases i with
    | zero =>
      simp at h
      simp [h]
    | succ n =>
      simp at h
      simpa using ih n x h

lemma findSourceIdx_eq_none_iff (u : String) (s : List Snapshot) :
    findSourceIdx u s = none ↔ ∀ x ∈ s, x.uuid ≠ u := by
  induction s with
  | nil => simp [findSourceIdx]
  | cons a s ih =>
    by_cases h : a.uuid = u
    · simp [findSourceIdx, h]
    · simp [findSourceIdx, h, Option.map_eq_none', ih]

lemma findSourceIdx_some (u : String) :
    ∀ (s : List Snapshot) (i : Nat), findSourceIdx u s = some i →
      ∃ x, s[i]? = some x ∧ x.uuid = u ∧ ∀ j y, j < i → s[j]? = some y → y.uuid ≠ u := by
  intro s
  induction s with
  | nil => intro i h; simp [findSourceIdx] at h
  | cons a s ih =>
    intro i h
    by_cases hau : a.uuid = u
    · simp [findSourceIdx, hau] at h
      refine ⟨a, ?_, hau, ?_⟩
      · simp [← h]
      · intro j y hj
        omega
    · simp only [findSourceIdx, hau, if_false, Option.map_eq_some'] at h
      obtain ⟨i0, hi0, rfl⟩ := h
      obtain ⟨x, hx, hxu, hmin⟩ := ih i0 hi0
      refine ⟨x, by simpa using hx, hxu, ?_⟩
      intro j y hj hy
      cases j with
      | zero =>
        simp at hy
        simpa [← hy] using hau
      | succ j0 =>
        refine hmin j0 y (by omega) ?_
        simpa using hy

lemma lci_eq_none_iff (source : List Snapshot) (target : List Snapshot) :
    latestCommonSnapshotIndices source target = none ↔
      ∀ y ∈ target, findSourceIdx y.uuid source = none := by
  induction target with
  | nil => simp [latestCommonSnapshotIndices]
  | cons b t ih =>
    cases hb : findSourceIdx b.uuid source with
    | some si => simp [latestCommonSnapshotIndices, hb]
    | none => simp [latestCommonSnapshotIndices, hb, Option.map_eq_none', ih]

lemma lci_some (source : List Snapshot) :
    ∀ (target : List Snapshot) (si ti : Nat),
      latestCommonSnapshotIndices source target = some (si, ti) →
      ∃ ts, target[ti]? = some ts ∧ findSourceIdx ts.uuid source = some si ∧
        ∀ tj y, tj < ti → target[tj]? = some y → findSourceIdx y.uuid source = none := by
  intro target
  induction target with
  | nil => intro si ti h; simp [latestCommonSnapshotIndices] at h
  | cons b t ih =>
    intro si ti h
    cases hb : findSourceIdx b.uuid source with
    | some si0 =>
      simp [latestCommonSnapshotIndices, hb] at h
      obtain ⟨rfl, rfl⟩ := h
      refine ⟨b, by simp, hb, ?_⟩
      intro tj y htj
      omega
    | none =>
      simp only [latestCommonSnapshotIndices, hb, Option.map_eq_some'] at h
      obtain ⟨⟨si0, ti0⟩, hp, heq⟩ := h
      simp at heq
      obtain ⟨rfl, rfl⟩ := heq
      obtain ⟨ts, hts, hfs, hmin⟩ := ih si0 ti0 hp
      refine ⟨ts, by simpa using hts, hfs, ?_⟩
      intro tj y htj hy
      cases tj with
      | zero =>
        simp at hy
        simpa [← hy] using hb
      | succ tj0 =>
        refine hmin tj0 y (by omega) ?_
        simpa using hy

/-! ### Claims about the common-snapshot resolver -/

/-- Claim C1: latest_common classifies every pair of newest-first histories
in priority order. If no snapshot id occurs in both histories the scan finds
no pair and the resolver fails with NoCommonSnapshot; if the matched pair is
at index 0 of source and index 0 of target it fails with AlreadyInSync; if
the matched pair is at index 0 of source but not of target it fails with
TargetAheadOfSource; otherwise it succeeds and returns the matched source
snapshot, whose source index is strictly greater than 0. -/
theorem latestCommon_classification (source target : List Snapshot) :
    (latestCommonSnapshotIndices source target = none →
      latestCommonSnapshot source target = .error .noCommonSnapshot ∧
      ∀ s ∈ source, ∀ t ∈ target, s.uuid ≠ t.uuid) ∧
    ((∃ s ∈ source, ∃ t ∈ target, s.uuid = t.uuid) →
      latestCommonSnapshotIndices source target ≠ none) ∧
    (∀ si ti, latestCommonSnapshotIndices source target = some (si, ti) →
      ((si = 0 ∧ ti = 0) → latestCommonSnapshot source target = .error .alreadyInSync) ∧
      ((si = 0 ∧ ti ≠ 0) → latestCommonSnapshot source target = .error .targetAheadOfSource) ∧
      (si ≠ 0 → 0 < si ∧
        ∃ x, source[si]? = some x ∧ latestCommonSnapshot source target = .ok x)) := by
  refine ⟨?_, ?_, ?_⟩
  · intro h
    constructor
    · simp [latestCommonSnapshot, h]
    · intro s hs t ht
      have := (lci_eq_none_iff source target).mp h t ht
      exact (findSourceIdx_eq_none_iff t.uuid source).mp this s hs
  · rintro ⟨s, hs, t, ht, huuid⟩ hnone
    have := (lci_eq_none_iff source target).mp hnone t ht
    exact (findSourceIdx_eq_none_iff t.uuid source).mp this s hs huuid
  · intro si ti h
    refine ⟨?_, ?_, ?_⟩
    · rintro ⟨rfl, rfl⟩
      simp [latestCommonSnapshot, h]
    · rintro ⟨rfl, hti⟩
      simp [latestCommonSnapshot, h, hti]
    · intro hsi
      refine ⟨Nat.pos_of_ne_zero hsi, ?_⟩
      obtain ⟨ts, hts, hfs, -⟩ := lci_some source target si ti h
      obtain ⟨x, hx, -, -⟩ := findSourceIdx_some ts.uuid source si hfs
      refine ⟨x, hx, ?_⟩
      simp [latestCommonSnapshot, h, hsi, List.getD, hx]

/-- The older of the two concrete snapshots used to instantiate the
resolver claims. -/
def snapA : Snapshot :=
  ⟨"a", "ua", ⟨2021, 3, 1, 20, 34, 33⟩⟩

/-- The newer of the two concrete snapshots used to instantiate the
resolver claims. -/
def snapB : Snapshot :=
  ⟨"b", "ub", ⟨2021, 3, 1, 20, 35, 9⟩⟩

/-- Concrete instantiation of claim C1: with source holding a newer and an
older snapshot and target holding only the older one, the resolver succeeds
and returns the snapshot at source index 1. -/
theorem latestCommon_classification_witness :
    0 < 1 ∧
    ∃ x, [snapB, snapA][1]? = some x ∧
      latestCommonSnapshot [snapB, snapA] [snapA] = .ok x := by
  exact ((latestCommon_classification [snapB, snapA] [snapA]).2.2 1 0 (by decide)).2.2
    (by decide)

/-- Claim C2: the common snapshot selected by latest_common is the first
id-matching pair of the scan that walks target from newest to oldest in the
outer loop and source from newest to oldest in the inner loop: every target
snapshot strictly more recent than the matched one shares no id with any
source snapshot, and within the matched target snapshot the chosen source
index is the first source occurrence of that id. The scan finds no pair
exactly when the histories share no id. -/
theorem latestCommonIndices_first_match (source target : List Snapshot) :
    (latestCommonSnapshotIndices source target = none ↔
      ∀ t ∈ target, ∀ s ∈ source, s.uuid ≠ t.uuid) ∧
    (∀ si ti, latestCommonSnapshotIndices source target = some (si, ti) →
      ∃ ts ss, target[ti]? = some ts ∧ source[si]? = some ss ∧ ss.uuid = ts.uuid ∧
        (∀ tj y, tj < ti → target[tj]? = some y → ∀ s ∈ source, s.uuid ≠ y.uuid) ∧
        (∀ sj x, sj < si → source[sj]? = some x → x.uuid ≠ ts.uuid)) := by
  constructor
  · rw [lci_eq_none_iff]
    constructor
    · intro h t ht s hs
      exact (findSourceIdx_eq_none_iff t.uuid source).mp (h t ht) s hs
    · intro h t ht
      exact (findSourceIdx_eq_none_iff t.uuid source).mpr (fun s hs => h t ht s hs)
  · intro si ti h
    obtain ⟨ts, hts, hfs, hmin⟩ := lci_some source target si ti h
    obtain ⟨ss, hss, hssu, hsmin⟩ := findSourceIdx_some ts.uuid source si hfs
    refine ⟨ts, ss, hts, hss, hssu, ?_, hsmin⟩
    intro tj y htj hy s hs
    exact (findSourceIdx_eq_none_iff y.uuid source).mp (hmin tj y htj hy) s hs

/-- Concrete instantiation of claim C2: with the older snapshot shared and
the newer one only in source, the scan selects target index 0 and source
index 1, and the returned indices point at snapshots with equal ids. -/
theorem latestCommonIndices_first_match_witness :
    ∃ ts ss,
      [snapA][0]? = some ts ∧
      [snapB, snapA][1]? = some ss ∧
      ss.uuid = ts.uuid ∧
      (∀ tj y, tj < 0 → [snapA][tj]? = some y →
        ∀ s ∈ [snapB, snapA], s.uuid ≠ y.uuid) ∧
      (∀ sj x, sj < 1 → [snapB, snapA][sj]? = some x → x.uuid ≠ ts.uuid) := by
  exact (latestCommonIndices_first_match [snapB, snapA] [snapA]).2 1 0 (by decide)

/-! ### Helper lemmas about snapshot listing and timestamp derivation -/

lemma isSortedByCreated_iff_chain : ∀ (s : List Snapshot),
    isSortedByCreated s = true ↔
      List.Chain' (fun a b => b.created.before a.created = false) s
  | [] => by simp [isSortedByCreated]
  | [_] => by simp [isSortedByCreated]
  | a :: b :: rest => by
    rw [List.chain'_cons]
    have ih := isSortedByCreated_iff_chain (b :: rest)
    simp [isSortedByCreated, ih]

lemma attachTimes_preserves : ∀ (raw : List RawSnapshot) (snaps : List Snapshot),
    attachTimes raw = .ok snaps →
      snaps.map (fun s => RawSnapshot.mk s.name s.uuid) = raw := by
  intro raw
  induction raw with
  | nil =>
    intro snaps h
    simp [attachTimes] at h
    simp [← h]
  | cons r rest ih =>
    intro snaps h
    cases hp : parseTimeFromSnapshotName r.name with
    | error e => simp [attachTimes, hp] at h
    | ok dt =>
      cases hrest : attachTimes rest with
      | error e => simp [attachTimes, hp, hrest] at h
      | ok snaps0 =>
        simp [attachTimes, hp, hrest] at h
        simp [← h, ih snaps0 hrest]

lemma attachTimes_error_of_mem : ∀ (raw : List RawSnapshot) (r : RawSnapshot) (e : String),
    r ∈ raw → parseTimeFromSnapshotName r.name = .error e →
      ∃ e2, attachTimes raw = .error e2 := by
  intro raw
  induction raw with
  | nil => intro r e h; simp at h
  | cons a rest ih =>
    intro r e hmem hperr
    cases hp : parseTimeFromSnapshotName a.name with
    | error e0 => exact ⟨e0, by simp [attachTimes, hp]⟩
    | ok dt =>
      rcases List.mem_cons.mp hmem with rfl | hmem0
      · rw [hperr] at hp
        exact absurd hp (by simp)
      · obtain ⟨e2, he2⟩ := ih r e hmem0 hperr
        exact ⟨e2, by simp [attachTimes, hp, he2]⟩

lemma matchesShape_timeShape_nil : matchesShape timeShape [] = false := by
  decide

lemma findTimeMatch_eq_none : ∀ (l : List Char),
    (∀ i, i ≤ l.length → matchesShape timeShape (l.drop i) = false) →
      findTimeMatch l = none := by
  intro l
  induction l with
  | nil => intro h; rfl
  | cons c cs ih =>
    intro h
    have h0 : matchesShape timeShape (c :: cs) = false := by
      simpa using h 0 (by omega)
    rw [findTimeMatch, h0]
    simp only [Bool.false_eq_true, if_false]
    refine ih ?_
    intro i hi
    simpa using h (i + 1) (by simpa using hi)

/-! ### Claims about snapshot listing and timestamp derivation -/

/-- Claim C3: for every decoded snapshot sequence whose derived creation
times are in oldest-first order the list-snapshots validation returns the
same snapshots newest first (the input reversed); for every sequence not
already ordered oldest first it fails with a validation error instead of
re-sorting; the empty sequence is valid and produces empty output. -/
theorem ListSnapshots_validation (raw : List RawSnapshot) :
    (ListSnapshots [] = .ok []) ∧
    ∀ snaps, attachTimes raw = .ok snaps →
      (snaps.map (fun s => RawSnapshot.mk s.name s.uuid) = raw) ∧
      (List.Chain' (fun a b => b.created.before a.created = false) snaps →
        ListSnapshots raw = .ok snaps.reverse) ∧
      (¬ List.Chain' (fun a b => b.created.before a.created = false) snaps →
        ∃ e, ListSnapshots raw = .error e) := by
  refine ⟨by simp [ListSnapshots, attachTimes, isSortedByCreated], ?_⟩
  intro snaps hat
  refine ⟨attachTimes_preserves raw snaps hat, ?_, ?_⟩
  · intro hchain
    have hs : isSortedByCreated snaps = true := (isSortedByCreated_iff_chain snaps).mpr hchain
    simp [ListSnapshots, hat, hs]
  · intro hchain
    have hs : isSortedByCreated snaps = false := by
      cases hbool : isSortedByCreated snaps with
      | false => rfl
      | true => exact absurd ((isSortedByCreated_iff_chain snaps).mp hbool) hchain
    exact ⟨"provider returned snapshots in an unexpected order",
      by simp [ListSnapshots, hat, hs]⟩

/-- Concrete instantiation of claim C3: a two-element provider sequence
ordered oldest first is returned reversed, with names and ids unchanged. -/
theorem ListSnapshots_validation_witness :
    ([⟨"s1-2021-03-01-203433", "u1", ⟨2021, 3, 1, 20, 34, 33⟩⟩,
      (⟨"s2-2021-03-01-203509", "u2", ⟨2021, 3, 1, 20, 35, 9⟩⟩ : Snapshot)].map
        (fun s => RawSnapshot.mk s.name s.uuid) =
      [⟨"s1-2021-03-01-203433", "u1"⟩, ⟨"s2-2021-03-01-203509", "u2"⟩]) ∧
    ListSnapshots [⟨"s1-2021-03-01-203433", "u1"⟩, ⟨"s2-2021-03-01-203509", "u2"⟩] =
      .ok ([⟨"s1-2021-03-01-203433", "u1", ⟨2021, 3, 1, 20, 34, 33⟩⟩,
            ⟨"s2-2021-03-01-203509", "u2", ⟨2021, 3, 1, 20, 35, 9⟩⟩].reverse) := by
  have h := (ListSnapshots_validation
    [⟨"s1-2021-03-01-203433", "u1"⟩, ⟨"s2-2021-03-01-203509", "u2"⟩]).2
    [⟨"s1-2021-03-01-203433", "u1", ⟨2021, 3, 1, 20, 34, 33⟩⟩,
     ⟨"s2-2021-03-01-203509", "u2", ⟨2021, 3, 1, 20, 35, 9⟩⟩] (by rfl)
  exact ⟨h.1, h.2.1 ((isSortedByCreated_iff_chain _).mp (by decide))⟩

/-- Claim C7: a snapshot name in which no window matches the
yyyy-mm-dd-hhmmss digit pattern fails timestamp derivation; a name whose
matched window does not parse as a valid date-time also fails; and a
snapshot list containing a name that fails derivation makes the snapshot
listing fail, so no snapshot is given a defaulted creation time. -/
theorem parseTime_validation :
    (∀ name : String,
      (∀ i, i ≤ name.toList.length → matchesShape timeShape (name.toList.drop i) = false) →
      ∃ e, parseTimeFromSnapshotName name = .error e) ∧
    (∀ (name : String) (m : List Char),
      findTimeMatch name.toList = some m → parseTimeDigits m = none →
      ∃ e, parseTimeFromSnapshotName name = .error e) ∧
    (∀ (raw : List RawSnapshot) (r : RawSnapshot) (e : String),
      r ∈ raw → parseTimeFromSnapshotName r.name = .error e →
      ∃ e2, ListSnapshots raw = .error e2) := by
  refine ⟨?_, ?_, ?_⟩
  · intro name h
    have hnone : findTimeMatch name.data = none := findTimeMatch_eq_none name.toList h
    exact ⟨"snapshot name does not contain a timestamp of the form yyyy-mm-dd-hhmmss",
      by simp [parseTimeFromSnapshotName, hnone]⟩
  · intro name m hm hd
    have hm2 : findTimeMatch name.data = some m := hm
    exact ⟨"failed to parse time substring from snapshot name",
      by simp [parseTimeFromSnapshotName, hm2, hd]⟩
  · intro raw r e hmem hperr
    obtain ⟨e2, he2⟩ := attachTimes_error_of_mem raw r e hmem hperr
    exact ⟨e2, by simp [ListSnapshots, he2]⟩

/-- Concrete instantiation of claim C7: a name with no timestamp window
fails, a name whose window holds month 13 fails, and a snapshot list
holding the first name fails as a whole. -/
theorem parseTime_validation_witness :
    (∃ e, parseTimeFromSnapshotName "foo-snapshot" = .error e) ∧
    (∃ e, parseTimeFromSnapshotName "x2021-13-01-000000" = .error e) ∧
    (∃ e2, ListSnapshots [⟨"foo-snapshot", "u"⟩] = .error e2) := by
  refine ⟨?_, ?_, ?_⟩
  · exact parseTime_validation.1 "foo-snapshot" (by decide)
  · exact parseTime_validation.2.1 "x2021-13-01-000000" ("2021-13-01-000000".toList)
      (by rfl) (by rfl)
  · exact parseTime_validation.2.2 [⟨"foo-snapshot", "u"⟩] ⟨"foo-snapshot", "u"⟩
      "snapshot name does not contain a timestamp of the form yyyy-mm-dd-hhmmss"
      (by simp) (by rfl)

/-! ### Helper lemmas about the clone orchestrator -/

lemma destructiveClone_target_nonempty (env : Env) (si ti : VolumeInfo)
    (tr : List Event) (ts : List Snapshot)
    (hts : env.snapsOf ti = .ok ts) (hne : ts ≠ []) :
    (∃ e, (destructiveClone env si ti tr).1 = .error e) ∧
    ∀ ev ∈ (destructiveClone env si ti tr).2, ev ∈ tr ∨ ev.isRead = true := by
  cases hss : env.snapsOf si with
  | error e =>
    refine ⟨⟨"error listing snapshots of source: " ++ e, by simp [destructiveClone, hss]⟩, ?_⟩
    intro ev hev
    simp [destructiveClone, hss] at hev
    rcases hev with hev | rfl
    · exact Or.inl hev
    · exact Or.inr rfl
  | ok ss =>
    cases ss with
    | nil =>
      refine ⟨⟨"source does not contain any snapshots", by simp [destructiveClone, hss]⟩, ?_⟩
      intro ev hev
      simp [destructiveClone, hss] at hev
      rcases hev with hev | rfl
      · exact Or.inl hev
      · exact Or.inr rfl
    | cons s0 ss0 =>
      have hlen : ts.length > 0 := List.length_pos.mpr hne
      refine ⟨⟨"aborting because target contains snapshots that would be erased",
        by simp [destructiveClone, hss, hts, hlen]⟩, ?_⟩
      intro ev hev
      simp [destructiveClone, hss, hts, hlen] at hev
      rcases hev with hev | rfl | rfl
      · exact Or.inl hev
      · exact Or.inr rfl
      · exact Or.inr rfl

lemma destructiveClone_source_empty (env : Env) (si ti : VolumeInfo) (tr : List Event)
    (hss : env.snapsOf si = .ok []) :
    (∃ e, (destructiveClone env si ti tr).1 = .error e) ∧
    ∀ ev ∈ (destructiveClone env si ti tr).2, ev ∈ tr ∨ ev.isRead = true := by
  refine ⟨⟨"source does not contain any snapshots", by simp [destructiveClone, hss]⟩, ?_⟩
  intro ev hev
  simp [destructiveClone, hss] at hev
  rcases hev with hev | rfl
  · exact Or.inl hev
  · exact Or.inr rfl

/-! ### Claim about the initialize-mode guards -/

/-- Claim C4: in initialize mode, for every target with a non-empty
snapshot history the cloneability check fails and the clone operation
fails; the destructive clone returns its error before the destructive
restorer is invoked, so the whole trace consists of read calls only, and
the destructive clone also fails before invoking the restorer when the
source has no snapshots. -/
theorem initMode_guards :
    (∀ (c : Cloner) (ss ts : List Snapshot), c.initTargets = true → ts ≠ [] →
      ∃ e, c.cloneable ss ts = .error e) ∧
    (∀ (env : Env) (si ti : VolumeInfo) (ts : List Snapshot),
      env.snapsOf ti = .ok ts → ts ≠ [] →
      (∃ e, (destructiveClone env si ti []).1 = .error e) ∧
      ∀ ev ∈ (destructiveClone env si ti []).2, ev.isRead = true) ∧
    (∀ (env : Env) (si ti : VolumeInfo),
      env.snapsOf si = .ok [] →
      (∃ e, (destructiveClone env si ti []).1 = .error e) ∧
      ∀ ev ∈ (destructiveClone env si ti []).2, ev.isRead = true) ∧
    (∀ (c : Cloner) (env : Env) (source target : String) (si ti : VolumeInfo)
       (ts : List Snapshot),
      c.initTargets = true →
      env.infoOf source = .ok si → env.infoOf target = .ok ti →
      env.snapsOf ti = .ok ts → ts ≠ [] →
      (∃ e, (Cloner.Clone c env source target []).1 = .error e) ∧
      ∀ ev ∈ (Cloner.Clone c env source target []).2, ev.isRead = true) := by
  refine ⟨?_, ?_, ?_, ?_⟩
  · intro c ss ts hc hne
    have hlen : ts.length > 0 := List.length_pos.mpr hne
    exact ⟨"invalid target: target has snapshots - erase the disk before using it",
      by simp [Cloner.cloneable, hc, hlen]⟩
  · intro env si ti ts hts hne
    have h := destructiveClone_target_nonempty env si ti [] ts hts hne
    refine ⟨h.1, ?_⟩
    intro ev hev
    rcases h.2 ev hev with hmem | hread
    · simp at hmem
    · exact hread
  · intro env si ti hss
    have h := destructiveClone_source_empty env si ti [] hss
    refine ⟨h.1, ?_⟩
    intro ev hev
    rcases h.2 ev hev with hmem | hread
    · simp at hmem
    · exact hread
  · intro c env source target si ti ts hc hs ht hts hne
    have h := destructiveClone_target_nonempty env si ti [.info source, .info target] ts hts hne
    obtain ⟨e, he⟩ := h.1
    refine ⟨⟨e, by simp [Cloner.Clone, hs, ht, hc, he]⟩, ?_⟩
    intro ev hev
    have hev2 : ev ∈ (destructiveClone env si ti [.info source, .info target]).2 := by
      simpa [Cloner.Clone, hs, ht, hc, he] using hev
    rcases h.2 ev hev2 with hmem | hread
    · rcases (by simpa using hmem : ev = .info source ∨ ev = .info target) with rfl | rfl
      · rfl
      · rfl
    · exact hread

/-! ### Concrete fixtures used to instantiate the orchestrator claims -/

/-- A concrete writable APFS source volume. -/
def volFoo : VolumeInfo :=
  ⟨"foo-name", "uuid-foo", "/foo/mount/point", "/dev/disk-foo", true, "apfs", "APFS"⟩

/-- A concrete writable APFS target volume. -/
def volBar : VolumeInfo :=
  ⟨"bar-name", "uuid-bar", "/bar/mount/point", "/dev/disk-bar", true, "apfs", "APFS"⟩

/-- A concrete environment holding the two volumes above, with the given
snapshot histories and the given outcome for the rename call; every other
mutating call succeeds. -/
def testEnv (ss ts : List Snapshot) (ren : Except String Unit) : Env where
  infoOf := fun l =>
    if l = "foo" then .ok volFoo
    else if l = "bar" then .ok volBar
    else .error "volume not found"
  snapsOf := fun v =>
    if v.uuid = volFoo.uuid then .ok ss
    else if v.uuid = volBar.uuid then .ok ts
    else .error "volume not found"
  renameOk := fun _ _ => ren
  deleteOk := fun _ _ => .ok ()
  restoreOk := fun _ _ _ _ => .ok ()
  dRestoreOk := fun _ _ _ => .ok ()

/-- Concrete instantiation of claim C4: with the target holding one
snapshot, initialize-mode Clone fails and its whole trace consists of read
calls. -/
theorem initMode_guards_witness :
    (∃ e, (Cloner.Clone ⟨false, true⟩ (testEnv [snapB] [snapA] (.ok ())) "foo" "bar" []).1 =
      .error e) ∧
    ∀ ev ∈ (Cloner.Clone ⟨false, true⟩ (testEnv [snapB] [snapA] (.ok ())) "foo" "bar" []).2,
      ev.isRead = true := by
  exact initMode_guards.2.2.2 ⟨false, true⟩ (testEnv [snapB] [snapA] (.ok ())) "foo" "bar"
    volFoo volBar [snapA] rfl rfl rfl rfl (by simp)

/-! ### Claim about filesystem-variant validation -/

lemma cloneableLoop_ok_fs (c : Cloner) (env : Env) (si : VolumeInfo) (ss : List Snapshot) :
    ∀ (targets : List String) (m : List (String × String)) (tr : List Event),
      (cloneableLoop c env si ss m targets tr).1 = .ok () →
      ∀ t ∈ targets, ∃ ti, env.infoOf t = .ok ti ∧ si.fileSystem = ti.fileSystem := by
  intro targets
  induction targets with
  | nil => intro m tr h t ht; simp at ht
  | cons t0 rest ih =>
    intro m tr h t ht
    cases hinfo : env.infoOf t0 with
    | error e => simp [cloneableLoop, hinfo] at h
    | ok ti0 =>
      by_cases huuid : si.uuid = ti0.uuid
      · simp [cloneableLoop, hinfo, huuid] at h
      · by_cases hdup : lookupD m ti0.uuid ≠ ""
        · simp [cloneableLoop, hinfo, huuid, hdup] at h
        · by_cases hfst : ti0.fileSystemType ≠ "apfs"
          · simp [cloneableLoop, hinfo, huuid, hdup, hfst] at h
          · by_cases hfs : si.fileSystem ≠ ti0.fileSystem
            · simp [cloneableLoop, hinfo, huuid, hdup, hfst, hfs] at h
            · by_cases hw : ti0.writable = true
              · cases hsnaps : env.snapsOf ti0 with
                | error e =>
                  simp [cloneableLoop, hinfo, huuid, hdup, hfst, hfs, hw, hsnaps] at h
                | ok ts0 =>
                  cases hcl : c.cloneable ss ts0 with
                  | error e =>
                    simp [cloneableLoop, hinfo, huuid, hdup, hfst, hfs, hw, hsnaps, hcl] at h
                  | ok u =>
                    have hrest : (cloneableLoop c env si ss ((ti0.uuid, t0) :: m) rest
                        (tr ++ [.info t0] ++ [.listSnapshots ti0.uuid])).1 = .ok () := by
                      simpa [cloneableLoop, hinfo, huuid, hdup, hfst, hfs, hw, hsnaps, hcl]
                        using h
                    rcases List.mem_cons.mp ht with rfl | hmem
                    · exact ⟨ti0, hinfo, not_ne_iff.mp hfs⟩
                    · exact ih _ _ hrest t hmem
              · have hw2 : ti0.writable = false := by
                  cases hwb : ti0.writable with
                  | false => rfl
                  | true => exact absurd hwb hw
                simp [cloneableLoop, hinfo, huuid, hdup, hfst, hfs, hw2] at h

lemma Cloneable_ok_fs (c : Cloner) (env : Env) (source : String) (targets : List String)
    (tr : List Event) :
    (Cloner.Cloneable c env source targets tr).1 = .ok () →
    ∀ t ∈ targets, ∃ si ti, env.infoOf source = .ok si ∧ env.infoOf t = .ok ti ∧
      si.fileSystem = ti.fileSystem := by
  intro h t ht
  cases hinfo : env.infoOf source with
  | error e => simp [Cloner.Cloneable, hinfo] at h
  | ok si =>
    by_cases hfst : si.fileSystemType ≠ "apfs"
    · simp [Cloner.Cloneable, hinfo, hfst] at h
    · cases hsnaps : env.snapsOf si with
      | error e => simp [Cloner.Cloneable, hinfo, hfst, hsnaps] at h
      | ok ss =>
        by_cases hlen : ss.length = 0
        · simp [Cloner.Cloneable, hinfo, hfst, hsnaps, hlen] at h
        · by_cases htlen : targets.length = 0
          · rw [List.length_eq_zero] at htlen
            subst htlen
            simp at ht
          · have hloop : (cloneableLoop c env si ss [] targets
                (tr ++ [.info source] ++ [.listSnapshots si.uuid])).1 = .ok () := by
              simpa [Cloner.Cloneable, hinfo, hfst, hsnaps, hlen, htlen] using h
            obtain ⟨ti, hti, hfs⟩ := cloneableLoop_ok_fs c env si ss targets [] _ hloop t ht
            exact ⟨si, ti, rfl, hti, hfs⟩

/-- Claim C6: for every source and target pair whose fine-grained file
system variant differs, the cloneability validation fails, whatever the two
snapshot histories contain or share. -/
theorem Cloneable_rejects_variant_mismatch
    (c : Cloner) (env : Env) (source : String) (targets : List String) (tgt : String)
    (si ti : VolumeInfo)
    (hmem : tgt ∈ targets)
    (hs : env.infoOf source = .ok si)
    (ht : env.infoOf tgt = .ok ti)
    (hne : si.fileSystem ≠ ti.fileSystem) :
    ∃ e, (Cloner.Cloneable c env source targets []).1 = .error e := by
  cases hres : (Cloner.Cloneable c env source targets []).1 with
  | error e => exact ⟨e, rfl⟩
  | ok u =>
    exfalso
    cases u
    obtain ⟨si2, ti2, hs2, ht2, hfs2⟩ := Cloneable_ok_fs c env source targets [] hres tgt hmem
    rw [hs] at hs2
    rw [ht] at ht2
    cases hs2
    cases ht2
    exact hne hfs2

/-- A case-sensitive variant of the concrete target volume. -/
def volBarCS : VolumeInfo :=
  ⟨"bar-name", "uuid-bar", "/bar/mount/point", "/dev/disk-bar", true, "apfs",
   "Case-sensitive APFS"⟩

/-- A concrete environment whose target volume has a different filesystem
variant than the source, with a shared snapshot history. -/
def envVariantMismatch : Env where
  infoOf := fun l =>
    if l = "foo" then .ok volFoo
    else if l = "bar" then .ok volBarCS
    else .error "volume not found"
  snapsOf := fun v =>
    if v.uuid = volFoo.uuid then .ok [snapB, snapA]
    else if v.uuid = volBarCS.uuid then .ok [snapA]
    else .error "volume not found"
  renameOk := fun _ _ => .ok ()
  deleteOk := fun _ _ => .ok ()
  restoreOk := fun _ _ _ _ => .ok ()
  dRestoreOk := fun _ _ _ => .ok ()

/-- Concrete instantiation of claim C6: an APFS source and a case-sensitive
APFS target share a snapshot, yet Cloneable fails. -/
theorem Cloneable_rejects_variant_mismatch_witness :
    ∃ e, (Cloner.Cloneable ⟨false, false⟩ envVariantMismatch "foo" ["bar"] []).1 =
      .error e := by
  exact Cloneable_rejects_variant_mismatch ⟨false, false⟩ envVariantMismatch "foo" ["bar"]
    "bar" volFoo volBarCS (by simp) rfl rfl (by decide)

/-! ### Claim about Cloneable being read-only and idempotent -/

lemma cloneableLoop_reads (c : Cloner) (env : Env) (si : VolumeInfo) (ss : List Snapshot) :
    ∀ (targets : List String) (m : List (String × String)) (tr : List Event),
      ∀ ev ∈ (cloneableLoop c env si ss m targets tr).2, ev ∈ tr ∨ ev.isRead = true := by
  intro targets
  induction targets with
  | nil => intro m tr ev hev; exact Or.inl hev
  | cons t0 rest ih =>
    intro m tr ev hev
    cases hinfo : env.infoOf t0 with
    | error e =>
      simp [cloneableLoop, hinfo] at hev
      rcases hev with hev | rfl
      · exact Or.inl hev
      · exact Or.inr rfl
    | ok ti0 =>
      by_cases huuid : si.uuid = ti0.uuid
      · simp [cloneableLoop, hinfo, huuid] at hev
        rcases hev with hev | rfl
        · exact Or.inl hev
        · exact Or.inr rfl
      · by_cases hdup : lookupD m ti0.uuid ≠ ""
        · simp [cloneableLoop, hinfo, huuid, hdup] at hev
          rcases hev with hev | rfl
          · exact Or.inl hev
          · exact Or.inr rfl
        · by_cases hfst : ti0.fileSystemType ≠ "apfs"
          · simp [cloneableLoop, hinfo, huuid, hdup, hfst] at hev
            rcases hev with hev | rfl
            · exact Or.inl hev
            · exact Or.inr rfl
          · by_cases hfs : si.fileSystem ≠ ti0.fileSystem
            · simp [cloneableLoop, hinfo, huuid, hdup, hfst, hfs] at hev
              rcases hev with hev | rfl
              · exact Or.inl hev
              · exact Or.inr rfl
            · cases hwb : ti0.writable with
              | false =>
                simp [cloneableLoop, hinfo, huuid, hdup, hfst, hfs, hwb] at hev
                rcases hev with hev | rfl
                · exact Or.inl hev
                · exact Or.inr rfl
              | true =>
                cases hsnaps : env.snapsOf ti0 with
                | error e =>
                  simp [cloneableLoop, hinfo, huuid, hdup, hfst, hfs, hwb, hsnaps] at hev
                  rcases hev with hev | rfl | rfl
                  · exact Or.inl hev
                  · exact Or.inr rfl
                  · exact Or.inr rfl
                | ok ts0 =>
                  cases hcl : c.cloneable ss ts0 with
                  | error e =>
                    simp [cloneableLoop, hinfo, huuid, hdup, hfst, hfs, hwb, hsnaps, hcl]
                      at hev
                    rcases hev with hev | rfl | rfl
                    · exact Or.inl hev
                    · exact Or.inr rfl
                    · exact Or.inr rfl
                  | ok u =>
                    have hev2 : ev ∈ (cloneableLoop c env si ss ((ti0.uuid, t0) :: m) rest
                        (tr ++ [.info t0] ++ [.listSnapshots ti0.uuid])).2 := by
                      simpa [cloneableLoop, hinfo, huuid, hdup, hfst, hfs, hwb, hsnaps, hcl]
                        using hev
                    rcases ih _ _ ev hev2 with hmem | hread
                    · simp only [List.mem_append, List.mem_singleton] at hmem
                      rcases hmem with (hmem | rfl) | rfl
                      · exact Or.inl hmem
                      · exact Or.inr rfl
                      · exact Or.inr rfl
                    · exact Or.inr hread

lemma Cloneable_reads (c : Cloner) (env : Env) (source : String) (targets : List String) :
    ∀ ev ∈ (Cloner.Cloneable c env source targets []).2, ev.isRead = true := by
  intro ev hev
  cases hinfo : env.infoOf source with
  | error e =>
    simp [Cloner.Cloneable, hinfo] at hev
    simp [hev, Event.isRead]
  | ok si =>
    by_cases hfst : si.fileSystemType ≠ "apfs"
    · simp [Cloner.Cloneable, hinfo, hfst] at hev
      simp [hev, Event.isRead]
    · cases hsnaps : env.snapsOf si with
      | error e =>
        simp [Cloner.Cloneable, hinfo, hfst, hsnaps] at hev
        rcases hev with rfl | rfl
        · rfl
        · rfl
      | ok ss =>
        by_cases hlen : ss.length = 0
        · simp [Cloner.Cloneable, hinfo, hfst, hsnaps, hlen] at hev
          rcases hev with rfl | rfl
          · rfl
          · rfl
        · by_cases htlen : targets.length = 0
          · simp [Cloner.Cloneable, hinfo, hfst, hsnaps, hlen, htlen] at hev
            rcases hev with rfl | rfl
            · rfl
            · rfl
          · have hev2 : ev ∈ (cloneableLoop c env si ss [] targets
                ([] ++ [.info source] ++ [.listSnapshots si.uuid])).2 := by
              simpa [Cloner.Cloneable, hinfo, hfst, hsnaps, hlen, htlen] using hev
            rcases cloneableLoop_reads c env si ss targets [] _ ev hev2 with hmem | hread
            · simp at hmem
              rcases hmem with rfl | rfl
              · rfl
              · rfl
            · exact hread

lemma foldl_preserves_of_reads {W : Type} (upd : W → Event → W)
    (h : ∀ (w : W) (ev : Event), ev.isRead = true → upd w ev = w) :
    ∀ (tr : List Event) (w : W), (∀ ev ∈ tr, ev.isRead = true) → tr.foldl upd w = w := by
  intro tr
  induction tr with
  | nil => intro w _; rfl
  | cons e tr ih =>
    intro w hall
    have he : upd w e = w := h w e (hall e (by simp))
    have hrest : ∀ ev ∈ tr, ev.isRead = true := fun ev hev => hall ev (by simp [hev])
    simpa [List.foldl_cons, he] using ih w hrest

/-- Claim C9: Cloneable performs only read calls (volume info and snapshot
listing), and therefore, for any fixed external state, running Cloneable
leaves the external state unchanged under any state updater that is
invariant under read calls, so a second Cloneable call against the state
produced by the first returns the same result as the first. -/
theorem Cloneable_readonly_idempotent :
    (∀ (c : Cloner) (env : Env) (source : String) (targets : List String),
      ∀ ev ∈ (Cloner.Cloneable c env source targets []).2, ev.isRead = true) ∧
    (∀ (W : Type) (upd : W → Event → W) (envOf : W → Env) (w : W)
       (c : Cloner) (source : String) (targets : List String),
      (∀ (w0 : W) (ev : Event), ev.isRead = true → upd w0 ev = w0) →
      Cloner.Cloneable c
        (envOf ((Cloner.Cloneable c (envOf w) source targets []).2.foldl upd w))
        source targets [] =
      Cloner.Cloneable c (envOf w) source targets []) := by
  refine ⟨Cloneable_reads, ?_⟩
  intro W upd envOf w c source targets hupd
  have hreads := Cloneable_reads c (envOf w) source targets
  rw [foldl_preserves_of_reads upd hupd _ w hreads]

/-- Concrete instantiation of claim C9: over a counter world whose updater
ignores read calls, running Cloneable twice from the same world gives the
same result. -/
theorem Cloneable_readonly_idempotent_witness :
    Cloner.Cloneable ⟨false, false⟩
      ((fun _ : Nat => testEnv [snapB, snapA] [snapA] (.ok ()))
        ((Cloner.Cloneable ⟨false, false⟩
          ((fun _ : Nat => testEnv [snapB, snapA] [snapA] (.ok ())) 0)
          "foo" ["bar"] []).2.foldl
            (fun n ev => if ev.isRead then n else n + 1) 0))
      "foo" ["bar"] [] =
    Cloner.Cloneable ⟨false, false⟩
      ((fun _ : Nat => testEnv [snapB, snapA] [snapA] (.ok ())) 0) "foo" ["bar"] [] := by
  exact Cloneable_readonly_idempotent.2 Nat
    (fun n ev => if ev.isRead then n else n + 1)
    (fun _ => testEnv [snapB, snapA] [snapA] (.ok ())) 0
    ⟨false, false⟩ "foo" ["bar"]
    (fun w0 ev h => by simp [h])

/-! ### Claim about the rename-back step -/

/-- Claim C10: the rename-back of the target to its pre-restore display
name runs in both modes. After a successful destructive restore in
initialize mode, and after a successful incremental restore in incremental
mode, Clone issues a rename of the target back to its recorded name as the
final collaborator call. -/
theorem Clone_renames_in_both_modes :
    (∀ (c : Cloner) (env : Env) (source target : String) (si ti : VolumeInfo)
       (s0 : Snapshot) (ss : List Snapshot),
      c.initTargets = true →
      env.infoOf source = .ok si → env.infoOf target = .ok ti →
      env.snapsOf si = .ok (s0 :: ss) → env.snapsOf ti = .ok [] →
      env.dRestoreOk si ti s0 = .ok () →
      (Cloner.Clone c env source target []).2 =
        [.info source, .info target, .listSnapshots si.uuid, .listSnapshots ti.uuid,
         .destructiveRestore si.uuid ti.uuid s0.uuid, .rename ti.uuid ti.name]) ∧
    (∀ (c : Cloner) (env : Env) (source target : String) (si ti : VolumeInfo)
       (ss ts : List Snapshot) (common : Snapshot),
      c.initTargets = false → c.prune = false →
      env.infoOf source = .ok si → env.infoOf target = .ok ti →
      env.snapsOf si = .ok ss → env.snapsOf ti = .ok ts →
      latestCommonSnapshot ss ts = .ok common →
      env.restoreOk si ti (ss.headD default) common = .ok () →
      (Cloner.Clone c env source target []).2 =
        [.info source, .info target, .listSnapshots si.uuid, .listSnapshots ti.uuid,
         .restore si.uuid ti.uuid (ss.headD default).uuid common.uuid,
         .rename ti.uuid ti.name]) := by
  constructor
  · intro c env source target si ti s0 ss hc hs ht hss hts hdr
    cases hren : env.renameOk ti ti.name <;>
      simp [Cloner.Clone, destructiveClone, hc, hs, ht, hss, hts, hdr, hren]
  · intro c env source target si ti ss ts common hc hp hs ht hss hts hcommon hres
    rw [List.headD_eq_head?] at hres
    cases hren : env.renameOk ti ti.name <;>
      simp [Cloner.Clone, Cloner.clone, hc, hp, hs, ht, hss, hts, hcommon, hres, hren]

/-- Concrete instantiation of claim C10: an initialize-mode Clone on an
empty target ends with a rename of the target back to its name, after the
destructive restore. -/
theorem Clone_renames_in_both_modes_witness :
    (Cloner.Clone ⟨false, true⟩ (testEnv [snapB] [] (.ok ())) "foo" "bar" []).2 =
      [.info "foo", .info "bar", .listSnapshots volFoo.uuid, .listSnapshots volBar.uuid,
       .destructiveRestore volFoo.uuid volBar.uuid snapB.uuid,
       .rename volBar.uuid volBar.name] := by
  exact Clone_renames_in_both_modes.1 ⟨false, true⟩ (testEnv [snapB] [] (.ok ()))
    "foo" "bar" volFoo volBar snapB [] rfl rfl rfl rfl rfl rfl

/-! ### Claim about the ordering of prune, restore and rename -/

/-- Claim C5 evaluated at a failing input: in incremental mode with prune
enabled, against an environment whose rename call fails, Clone reports
failure, yet the trace shows the common snapshot being deleted from the
target immediately after the restore and before the rename attempt. The
deletion therefore does not wait for the rename-back to complete
successfully, contradicting the claim (and the documentation of the Prune
option, which promises deletion only if the clone completes successfully),
while the deletion does come only after a successful restore. -/
theorem Clone_prune_precedes_rename_failing_input :
    (Cloner.Clone ⟨true, false⟩ (testEnv [snapB, snapA] [snapA] (.error "fake rename failure"))
      "foo" "bar" []).1 =
      .error "error renaming volume to original name: fake rename failure" ∧
    (Cloner.Clone ⟨true, false⟩ (testEnv [snapB, snapA] [snapA] (.error "fake rename failure"))
      "foo" "bar" []).2 =
      [.info "foo", .info "bar", .listSnapshots volFoo.uuid, .listSnapshots volBar.uuid,
       .restore volFoo.uuid volBar.uuid snapB.uuid snapA.uuid,
       .deleteSnapshot volBar.uuid snapA.uuid,
       .rename volBar.uuid volBar.name] := by
  exact ⟨rfl, rfl⟩

/-! ### Claim about the dry-run variants -/

/-- Claim C8: the dry-run metadata provider performs both read operations
(volume info and snapshot listing, and hence everything computed from them,
including common-snapshot resolution) exactly as the underlying real
implementation, while its two mutating operations and both mutating
operations of the dry-run restorer are no-ops that report success and leave
the external volume state unchanged. -/
theorem dryRun_reads_delegate_writes_noop (W : Type) (du : DiskUtilImpl W) (w : W)
    (loc : String) (v : VolumeInfo) (n : String) (s : Snapshot)
    (src tgt : VolumeInfo) (toSnap fromSnap : Snapshot) :
    (dryRunDiskUtil du).info w loc = du.info w loc ∧
    (dryRunDiskUtil du).listSnapshots w v = du.listSnapshots w v ∧
    (dryRunDiskUtil du).rename w v n = (.ok (), w) ∧
    (dryRunDiskUtil du).deleteSnapshot w v s = (.ok (), w) ∧
    (dryRunRestorer : RestorerImpl W).restore w src tgt toSnap fromSnap = (.ok (), w) ∧
    (dryRunRestorer : RestorerImpl W).destructiveRestore w src tgt toSnap = (.ok (), w) := by
  exact ⟨rfl, rfl, rfl, rfl, rfl, rfl⟩

end OffsiteBackup
